import Mathlib

/-!
Verification of the `guided_filter` core of `vs-debandshit`
(`src/vsdeband/filters.py`), a guided-filter implementation for VapourSynth.

The pipeline is embedded shallowly:
* a plane is a function `ι → ℚ` over an abstract pixel-index type `ι`
  (working precision — 32-bit float in the code — is modelled by `ℚ`);
* the external collaborators (box/Gaussian blur families, the full-plane
  `PlaneStats` reductions, the expression evaluator's `sqrt`/`exp`, and the
  bit-depth promotion/restoration) are fields of an environment record
  `GFEnv` / explicit function parameters, matching the spec's treatment of
  them as library services specified only at their interface;
* every `norm_expr` call of the source is embedded through a small RPN
  (reverse-Polish, stack machine) evaluator over its literal token string,
  so that the closed-form properties proved below are genuine statements
  about the expressions the code builds, not restatements of a definition;
* Python-semantics details that decide claims are modelled explicitly:
  `list == int` is always `False` (the `r == 1` guard of line 93) and
  `list / int` raises `TypeError` (line 68), modelled as `none`.
-/

namespace VSDeband

/-- Tokens of the RPN expressions handed to `norm_expr` (`std.Expr` /
`akarin.Expr`).  `va n` loads the pixel value of source clip `n`
(x = 0, y = 1, z = 2, a = 3); `avgOf n` / `minOf n` load the
`PlaneStatsAverage` / `PlaneStatsMin` frame property of clip `n`;
`num c` pushes a literal; the rest are the stack operators used by
`guided_filter`. -/
inductive Tok where
  | va : ℕ → Tok
  | avgOf : ℕ → Tok
  | minOf : ℕ → Tok
  | num : ℚ → Tok
  | dup : Tok
  | add : Tok
  | sub : Tok
  | mul : Tok
  | dv : Tok
  | sqt : Tok
  | exl : Tok
deriving DecidableEq, Repr

/-- One step of the RPN stack machine: binary operators pop the right
operand first (`a b -` computes `a - b`), as in `std.Expr`.  `sq` and `ex`
interpret the evaluator's `sqrt` and `exp` primitives.  Stack underflow or
an out-of-range clip index yields `none`. -/
def rpnStep (sq ex : ℚ → ℚ) (vals avgs mins : List ℚ) :
    Tok → List ℚ → Option (List ℚ)
  | .va n, st => (vals.get? n).map (· :: st)
  | .avgOf n, st => (avgs.get? n).map (· :: st)
  | .minOf n, st => (mins.get? n).map (· :: st)
  | .num c, st => some (c :: st)
  | .dup, v :: st => some (v :: v :: st)
  | .add, b :: a :: st => some ((a + b) :: st)
  | .sub, b :: a :: st => some ((a - b) :: st)
  | .mul, b :: a :: st => some ((a * b) :: st)
  | .dv, b :: a :: st => some ((a / b) :: st)
  | .sqt, v :: st => some (sq v :: st)
  | .exl, v :: st => some (ex v :: st)
  | _, [] => none
  | _, [_] => none

/-- Run a whole token list on a stack. -/
def rpnRun (sq ex : ℚ → ℚ) (vals avgs mins : List ℚ) :
    List Tok → List ℚ → Option (List ℚ)
  | [], st => some st
  | t :: ts, st => (rpnStep sq ex vals avgs mins t st).bind
      (rpnRun sq ex vals avgs mins ts)

/-- Value of an RPN expression: the single element left on the stack
(`0` if the expression is ill-formed, which never happens for the token
lists below). -/
def rpn1 (sq ex : ℚ → ℚ) (vals avgs mins : List ℚ) (ts : List Tok) : ℚ :=
  match rpnRun sq ex vals avgs mins ts [] with
  | some [v] => v
  | _ => 0

/-- The stabilizer constant written `1e-06` in the source. -/
def eps6 : ℚ := 1 / 1000000

/-! Token lists of the `norm_expr` calls of `guided_filter`, written
exactly as the source strings. -/

/-- Line 83, applied to `g`: the string contains the tokens x dup *. -/
def eSquare : List Tok := [.va 0, .dup, .mul]

/-- Line 85, applied to the pair g, p: tokens x y *. -/
def eMulXY : List Tok := [.va 0, .va 1, .mul]

/-- Lines 87 and 98, variance: tokens x y dup * - . -/
def eVarT : List Tok := [.va 0, .va 1, .dup, .mul, .sub]

/-- Lines 88 and 142: tokens x y z * - . -/
def eCovT : List Tok := [.va 0, .va 1, .va 2, .mul, .sub]

/-- Line 91, ORIGINAL-mode slope: tokens x y eps + / . -/
def eAOrig (eps : ℚ) : List Tok := [.va 0, .va 1, .num eps, .add, .dv]

/-- Line 103, GRADIENT weight source: tokens x y * sqrt. -/
def eSqrtMul : List Tok := [.va 0, .va 1, .mul, .sqt]

/-- Line 105, reciprocal: tokens 1 x eps + / with eps = 1e-06. -/
def eDenom : List Tok := [.num 1, .va 0, .num eps6, .add, .dv]

/-- Line 110 (akarin path), sources weight_in, denominator: tokens
x 1e-06 + y.PlaneStatsAverage * . -/
def eWeightAka : List Tok := [.va 0, .num eps6, .add, .avgOf 1, .mul]

/-- Lines 112-116 (FrameEval path): same expression with the scalar
average substituted as a literal. -/
def eWeightFE (c : ℚ) : List Tok := [.va 0, .num eps6, .add, .num c, .mul]

/-- Line 119, WEIGHTED-mode slope: tokens x y eps z / + / . -/
def eAWeighted (eps : ℚ) : List Tok :=
  [.va 0, .va 1, .num eps, .va 2, .dv, .add, .dv]

/-- Lines 124-129 (akarin path), GRADIENT-mode slope, sources
cov_Ip, weight_in, weight, var_I: tokens
x eps 1 1 1 -4 y.PlaneStatsMin y.PlaneStatsAverage 1e-6 - - /
y y.PlaneStatsAverage - * exp + / - * z / + a eps z / + / . -/
def eAGradAka (eps : ℚ) : List Tok :=
  [.va 0, .num eps, .num 1, .num 1, .num 1, .num (-4),
   .minOf 1, .avgOf 1, .num eps6, .sub, .sub, .dv,
   .va 1, .avgOf 1, .sub, .mul, .exl, .add, .dv, .sub, .mul,
   .va 2, .dv, .add, .va 3, .num eps, .va 2, .dv, .add, .dv]

/-- Lines 131-138 (FrameEval path), GRADIENT-mode slope with the scalars
kk and alpha substituted as literals: tokens
x eps 1 1 1 kk y alpha - * exp + / - * z / + a eps z / + / . -/
def eAGradFE (eps kk alpha : ℚ) : List Tok :=
  [.va 0, .num eps, .num 1, .num 1, .num 1, .num kk,
   .va 1, .num alpha, .sub, .mul, .exl, .add, .dv, .sub, .mul,
   .va 2, .dv, .add, .va 3, .num eps, .va 2, .dv, .add, .dv]

/-- Line 150, reconstruction: tokens x y * z + . -/
def eRecon : List Tok := [.va 0, .va 1, .mul, .va 2, .add]

/-- The coefficient-solving strategies (`GuidedFilterMode`).  Modelled from
the spec: the enum lives in the repository's `types` module, which is not
part of the provided sources; the spec fixes it as the closed set
ORIGINAL, WEIGHTED, GRADIENT. -/
inductive GFMode where
  | ORIGINAL : GFMode
  | WEIGHTED : GFMode
  | GRADIENT : GFMode
deriving DecidableEq, Repr

/-- The external collaborators of the core, at their interface (spec §1):
`boxB n` is the box-blur family indexed by its radius argument, `gaussB v`
the Gaussian-blur family indexed by the square of its sigma argument
(sigma itself is irrational for the radii the code passes), `avg`/`minS`
the full-plane PlaneStatsAverage/PlaneStatsMin reductions, and
`sqrtE`/`expE` the expression evaluator's sqrt/exp primitives. -/
structure GFEnv (ι : Type) where
  boxB : ℤ → (ι → ℚ) → ι → ℚ
  gaussB : ℚ → (ι → ℚ) → ι → ℚ
  avg : (ι → ℚ) → ℚ
  minS : (ι → ℚ) → ℚ
  sqrtE : ℚ → ℚ
  expE : ℚ → ℚ

/-- The per-plane arguments of one `guided_filter` invocation after
parameter normalization: `sel` is whether this plane is in `planes`
(`norm_expr` and the blurs copy unselected planes from their first
source), `aka` is `aka_expr_available`, `rList` the normalized per-plane
radius list, `rv` this plane's radius, `eps` this plane's regulation, `p`
the input plane at working precision and `gOpt` the guidance plane when a
guidance clip is supplied. -/
structure GFIn (ι : Type) where
  env : GFEnv ι
  useGauss : Bool
  sel : Bool
  aka : Bool
  mode : GFMode
  rList : List ℤ
  rv : ℤ
  eps : ℚ
  p : ι → ℚ
  gOpt : Option (ι → ℚ)

variable {ι : Type}

/-- Python semantics of line 93's guard: `r` is the list produced by
`normalize_seq`, and in Python a `list` never compares equal to an `int`,
so `r == 1` is `False` for every radius list. -/
def pyListEqInt (_ : List ℤ) (_ : ℤ) : Bool := false

/-- Python semantics of line 68, `cround(r / down_ratio)`: `r` is a
`list`, and `list / int` raises `TypeError`; the division never produces
a value. -/
def pyListDivInt (_ : List ℤ) (_ : ℤ) : Option (List ℚ) := none

/-- First source clip of a `norm_expr` call (the clip an unselected plane
is copied from). -/
def firstSrc (srcs : List (ι → ℚ)) : ι → ℚ := srcs.headD (fun _ => 0)

/-- A `norm_expr` call on one plane: on a selected plane, evaluate the
expression pixelwise; on an unselected plane, copy the first source. -/
def exprMap (A : GFIn ι) (avgs mins : List ℚ) (ts : List Tok)
    (srcs : List (ι → ℚ)) : ι → ℚ :=
  fun i =>
    if A.sel then rpn1 A.env.sqrtE A.env.expE (srcs.map (· i)) avgs mins ts
    else firstSrc srcs i

/-- A blur call on one plane: unselected planes are copied unchanged. -/
def blurMap (A : GFIn ι) (bl : (ι → ℚ) → ι → ℚ) (x : ι → ℚ) : ι → ℚ :=
  if A.sel then bl x else x

/-- Lines 70-74: the main local-averaging operator; box window `rv + 1`,
or Gaussian with sigma `rv / 2 * sqrt 2`, i.e. sigma squared `rv ^ 2 / 2`. -/
def blurF (A : GFIn ι) : (ι → ℚ) → ι → ℚ :=
  if A.useGauss then A.env.gaussB ((A.rv : ℚ) ^ 2 / 2) else A.env.boxB (A.rv + 1)

/-- Lines 76-78: the fixed corrective small-window operator; box window 2,
or Gaussian with sigma `1 / 2 * sqrt 2`, i.e. sigma squared `1 / 2`. -/
def blurCorrF (A : GFIn ι) : (ι → ℚ) → ι → ℚ :=
  if A.useGauss then A.env.gaussB (1 / 2) else A.env.boxB 2

/-- Line 56: the guidance plane, the input itself when self-guided. -/
def gPlane (A : GFIn ι) : ι → ℚ := A.gOpt.getD A.p

/-- Line 80. -/
def mean_p (A : GFIn ι) : ι → ℚ := blurMap A (blurF A) A.p

/-- Line 81. -/
def mean_I (A : GFIn ι) : ι → ℚ :=
  match A.gOpt with
  | some g0 => blurMap A (blurF A) g0
  | none => mean_p A

/-- Line 83. -/
def I_square (A : GFIn ι) : ι → ℚ := exprMap A [] [] eSquare [gPlane A]

/-- Line 84. -/
def corr_I (A : GFIn ι) : ι → ℚ := blurMap A (blurF A) (I_square A)

/-- Line 85. -/
def corr_Ip (A : GFIn ι) : ι → ℚ :=
  match A.gOpt with
  | some g0 => blurMap A (blurF A) (exprMap A [] [] eMulXY [g0, A.p])
  | none => corr_I A

/-- Line 87. -/
def var_I (A : GFIn ι) : ι → ℚ := exprMap A [] [] eVarT [corr_I A, mean_I A]

/-- Line 88. -/
def cov_Ip (A : GFIn ι) : ι → ℚ :=
  match A.gOpt with
  | some _ => exprMap A [] [] eCovT [corr_Ip A, mean_I A, mean_p A]
  | none => var_I A

/-- Lines 93-98: the corrective small-window variance; the skip guard is
the Python comparison `r == 1` of the radius list with the int 1. -/
def var_I_1 (A : GFIn ι) : ι → ℚ :=
  if pyListEqInt A.rList 1 then var_I A
  else
    exprMap A [] [] eVarT
      [blurMap A (blurCorrF A) (I_square A),
       blurMap A (blurCorrF A) (gPlane A)]

/-- Lines 100-103: the weight source. -/
def weight_in (A : GFIn ι) : ι → ℚ :=
  match A.mode with
  | .WEIGHTED => var_I_1 A
  | _ => exprMap A [] [] eSqrtMul [var_I A, var_I_1 A]

/-- Line 105. -/
def denominator (A : GFIn ι) : ι → ℚ := exprMap A [] [] eDenom [weight_in A]

/-- Line 107: `PlaneStats` average of the denominator map. -/
def denomAvg (A : GFIn ι) : ℚ := A.env.avg (denominator A)

/-- Lines 109-116: the weight map, by the akarin single-expression path or
the `FrameEval` path. -/
def weight (A : GFIn ι) : ι → ℚ :=
  if A.aka then
    exprMap A [0, denomAvg A] [0, 0] eWeightAka [weight_in A, denominator A]
  else
    exprMap A [] [] (eWeightFE (denomAvg A)) [weight_in A]

/-- Line 121: `PlaneStats` average of the weight source. -/
def wAvg (A : GFIn ι) : ℚ := A.env.avg (weight_in A)

/-- Line 121: `PlaneStats` minimum of the weight source. -/
def wMin (A : GFIn ι) : ℚ := A.env.minS (weight_in A)

/-- Line 137: the constant the `FrameEval` gradient path substitutes
for kk. -/
def kkFE (A : GFIn ι) : ℚ := -4 / (wMin A - wAvg A - eps6)

/-- Lines 90-140: the slope map. -/
def aMap (A : GFIn ι) : ι → ℚ :=
  match A.mode with
  | .ORIGINAL => exprMap A [] [] (eAOrig A.eps) [cov_Ip A, var_I A]
  | .WEIGHTED => exprMap A [] [] (eAWeighted A.eps) [cov_Ip A, var_I A, weight A]
  | .GRADIENT =>
      if A.aka then
        exprMap A [0, wAvg A] [0, wMin A] (eAGradAka A.eps)
          [cov_Ip A, weight_in A, weight A, var_I A]
      else
        exprMap A [] [] (eAGradFE A.eps (kkFE A) (wAvg A))
          [cov_Ip A, weight_in A, weight A, var_I A]

/-- Line 142: the intercept map. -/
def bMap (A : GFIn ι) : ι → ℚ := exprMap A [] [] eCovT [mean_p A, aMap A, mean_I A]

/-- Line 144. -/
def mean_a (A : GFIn ι) : ι → ℚ := blurMap A (blurF A) (aMap A)

/-- Line 144. -/
def mean_b (A : GFIn ι) : ι → ℚ := blurMap A (blurF A) (bMap A)

/-- Line 150: the reconstructed output plane at working precision
(no resolution reduction: with `down_ratio` nonzero the call never reaches
this line, see `radiusAfterDown`). -/
def qMap (A : GFIn ι) : ι → ℚ :=
  exprMap A [] [] eRecon [mean_a A, gPlane A, mean_b A]

/-! ### Parameter normalizer (lines 45-51): the default radius -/

/-- Python's builtin `round`: round half to even. -/
def pyRound (q : ℚ) : ℤ :=
  if q - ⌊q⌋ < 1 / 2 then ⌊q⌋
  else if 1 / 2 < q - ⌊q⌋ then ⌊q⌋ + 1
  else if ⌊q⌋ % 2 = 0 then ⌊q⌋ else ⌊q⌋ + 1

/-- Line 49 (and 50 with the subsampled dimensions):
`max((width - 1280) / 160 + 12, (height - 720) / 90 + 12)`. -/
def radFormula (w h : ℚ) : ℚ :=
  max ((w - 1280) / 160 + 12) ((h - 720) / 90 + 12)

/-- Lines 45-51: the default per-plane radius list when `radius` is not
supplied; `ssw`/`ssh` are the chroma subsampling shifts, `np` the plane
count (line 51 truncates the two-element list to `num_planes`). -/
def defaultRadiusList (w h : ℤ) (ssw ssh : ℕ) (np : ℕ) : List ℤ :=
  let wc : ℚ := (w : ℚ) / 2 ^ ssw
  let hc : ℚ := (h : ℚ) / 2 ^ ssh
  [pyRound (radFormula w h), pyRound (radFormula wc hc)].take np

/-! ### Resolution reducer (lines 61-68) and shape-level pipeline -/

/-- The `cround` helper of `vstools`: round half away from zero. -/
def cround (x : ℚ) : ℤ := if 0 < x then ⌊x + 1 / 2⌋ else ⌈x - 1 / 2⌉

/-- Line 68, `r = cround(r / down_ratio)`, executed whenever `down_ratio`
is nonzero: `r` is the per-plane radius list, so the Python division
raises `TypeError` (`pyListDivInt`) before `cround` is ever applied. -/
def radiusAfterDown (r : List ℤ) (dr : ℤ) : Option (List ℤ) :=
  (pyListDivInt r dr).map (fun qs => qs.map cround)

/-- Dimension effect of a blur: spatial dimensions are preserved. -/
def blurDims (d : ℤ × ℤ) : ℤ × ℤ := d

/-- Dimension effect of a `norm_expr` call: all source clips must share
the same dimensions, which the result keeps. -/
def exprDims : List (ℤ × ℤ) → Option (ℤ × ℤ)
  | [] => none
  | d :: ds => if ds.all (· = d) then some d else none

/-- Shape-level model of one `guided_filter` invocation: spatial
dimensions, plane count and bit depth of the output, or `none` when the
call raises.  Follows lines 55 (promotion to 32-bit working precision),
61-68 (resolution reduction and radius rescaling), 80-144 (statistics,
coefficients and their smoothing, all dimension-preserving), 146-148
(upscaling of the coefficient maps back to the original dimensions),
150 (reconstruction against the original-resolution guidance) and 152
(restoration of the input bit depth). -/
def guidedMeta (w h bits : ℤ) (np : ℕ) (dr : ℤ) (r : List ℤ) :
    Option (ℤ × ℤ × ℕ × ℤ) :=
  let work : Option (ℤ × ℤ) :=
    if dr = 0 then some (w, h)
    else (radiusAfterDown r dr).map
      (fun _ => (cround ((w : ℚ) / dr), cround ((h : ℚ) / dr)))
  match work with
  | none => none
  | some wd =>
    let meanADims := blurDims wd
    let meanBDims := blurDims wd
    let upA := if dr = 0 then meanADims else (w, h)
    let upB := if dr = 0 then meanBDims else (w, h)
    match exprDims [upA, (w, h), upB] with
    | none => none
    | some qd => some (qd.1, qd.2, np, bits)

/-! ### Spec-side formulas (written from the spec's words, for the
refinement statements below) -/

/-- Spec §4.4, WEIGHTED: `a = covIp / (varI + eps / weight)`. -/
def specAWeighted (covIp varI wgt : ι → ℚ) (eps : ℚ) : ι → ℚ :=
  fun i => covIp i / (varI i + eps / wgt i)

/-- Spec §4.4: `denom = 1 / (W + 1e-6)`. -/
def specDenom (w0 : ι → ℚ) : ι → ℚ := fun i => 1 / (w0 i + eps6)

/-- Spec §4.4: `weight = (W + 1e-6) * mu_denom`. -/
def specWeight (w0 : ι → ℚ) (mu : ℚ) : ι → ℚ := fun i => (w0 i + eps6) * mu

/-- Spec §4.4: `b = meanP - a * meanI`. -/
def specB (mp am mi : ι → ℚ) : ι → ℚ := fun i => mp i - am i * mi i

/-- Spec §4.4, GRADIENT: the slope that combines `covIp`, `varI`,
`weight` and the sharpening term `1 / (1 + exp(k * (W - alpha)))`,
blended with the weight-normalized ORIGINAL-style term. -/
def specAGradient (ex : ℚ → ℚ) (covIp varI w0 wgt : ι → ℚ)
    (eps k alpha : ℚ) : ι → ℚ :=
  fun i =>
    (covIp i + eps * (1 - 1 / (1 + ex (k * (w0 i - alpha)))) / wgt i) /
      (varI i + eps / wgt i)

/-! ### Helper lemmas -/

theorem pyRound_intCast (n : ℤ) : pyRound (n : ℚ) = n := by
  simp [pyRound]

theorem pyRound_le (q : ℚ) (n : ℤ) (h : q ≤ (n : ℚ)) : pyRound q ≤ n := by
  have hf : ⌊q⌋ ≤ n := by
    have := Int.floor_le_floor h
    simpa using this
  unfold pyRound
  split_ifs with h1 h2 h3
  · exact hf
  · rcases lt_or_eq_of_le hf with hlt | heq
    · omega
    · exfalso
      have h2' : (1 : ℚ) / 2 < q - (n : ℚ) := by rwa [heq] at h2
      linarith
  · exact hf
  · rcases lt_or_eq_of_le hf with hlt | heq
    · omega
    · exfalso
      have h1' : ¬ q - (n : ℚ) < 1 / 2 := by rwa [heq] at h1
      push_neg at h1'
      linarith

/-! ### C2 — the default radius -/

/-- C2, counterexample: at 640x480 (at or below 1280x720) the default
radius is 9, not at least 12 — the formula has no floor at 12 below
1280x720 (the claim's minimum-radius clause fails). -/
theorem c2_default_radius_cx :
    (640 : ℤ) ≤ 1280 ∧ (480 : ℤ) ≤ 720 ∧
      defaultRadiusList 640 480 0 0 1 = [9] ∧ ¬ (12 : ℤ) ≤ 9 := by
  refine ⟨by decide, by decide, ?_, by decide⟩
  norm_num [defaultRadiusList, radFormula, pyRound]

/-- C2, amended: when `radius` is unset the per-plane default radius is
`pyRound (radFormula w h)` — `round(max((w-1280)/160+12, (h-720)/90+12))`
— with the chroma planes using the chroma-subsampled dimensions; it is
exactly 12 at 1280x720 and grows linearly with resolution above that
(`12 + k` at `(1280 + 160k) x (720 + 90k)`), but for dimensions at or
below 1280x720 it is only bounded *above* by 12 (it can be smaller). -/
theorem c2_default_radius (w h : ℤ) (ssw ssh : ℕ) :
    defaultRadiusList w h ssw ssh 3 =
      [pyRound (radFormula w h),
       pyRound (radFormula ((w : ℚ) / 2 ^ ssw) ((h : ℚ) / 2 ^ ssh))] ∧
    (w ≤ 1280 → h ≤ 720 → pyRound (radFormula w h) ≤ 12) ∧
    pyRound (radFormula 1280 720) = 12 ∧
    (∀ k : ℕ,
      pyRound (radFormula (1280 + 160 * (k : ℚ)) (720 + 90 * (k : ℚ))) =
        12 + k) := by
  refine ⟨by simp [defaultRadiusList], ?_,
    by norm_num [radFormula, pyRound], ?_⟩
  · intro hw hh
    apply pyRound_le
    have hw' : (w : ℚ) ≤ 1280 := by exact_mod_cast hw
    have hh' : (h : ℚ) ≤ 720 := by exact_mod_cast hh
    have e1 : ((w : ℚ) - 1280) / 160 + 12 ≤ 12 := by
      have : ((w : ℚ) - 1280) / 160 ≤ 0 :=
        div_nonpos_of_nonpos_of_nonneg (by linarith) (by norm_num)
      linarith
    have e2 : ((h : ℚ) - 720) / 90 + 12 ≤ 12 := by
      have : ((h : ℚ) - 720) / 90 ≤ 0 :=
        div_nonpos_of_nonpos_of_nonneg (by linarith) (by norm_num)
      linarith
    simpa [radFormula] using max_le e1 e2
  · intro k
    have e1 : (1280 + 160 * (k : ℚ) - 1280) / 160 + 12 = (k : ℚ) + 12 := by
      ring
    have e2 : (720 + 90 * (k : ℚ) - 720) / 90 + 12 = (k : ℚ) + 12 := by
      ring
    rw [radFormula, e1, e2, max_self,
      show (k : ℚ) + 12 = ((12 + (k : ℤ) : ℤ) : ℚ) by push_cast; ring,
      pyRound_intCast]

/-- C2, witness: the amended theorem applied at 1280x720. -/
theorem c2_default_radius_witness :
    pyRound (radFormula 1280 720) ≤ 12 :=
  (c2_default_radius 1280 720 0 0).2.1 (by norm_num) (by norm_num)

/-! ### C4 and C9 — the resolution reducer and output shape -/

/-- C4: with any nonzero `down_ratio` (the spec allows integers at least
2) the invocation never completes: line 68 divides the per-plane radius
*list* by the integer ratio, which raises `TypeError` in Python.  The
statistics, coefficients and output are never computed. -/
theorem c4_down_ratio_raises (w h bits : ℤ) (np : ℕ) (dr : ℤ)
    (r : List ℤ) (hdr : 2 ≤ dr) :
    guidedMeta w h bits np dr r = none := by
  have : ¬ dr = 0 := by omega
  simp [guidedMeta, radiusAfterDown, pyListDivInt, this]

/-- C4, witness: a 4K clip with `down_ratio = 4` raises. -/
theorem c4_down_ratio_raises_witness :
    guidedMeta 3840 2160 16 3 4 [24, 24, 24] = none :=
  c4_down_ratio_raises 3840 2160 16 3 4 [24, 24, 24] (by norm_num)

/-- C9, counterexample: with `down_ratio = 2` there is no output at all
(the call raises at the radius rescaling), so the claim's "regardless of
downRatio" fails — dimension/format preservation cannot hold for a call
that never returns. -/
theorem c9_shape_cx : guidedMeta 1920 1080 8 3 2 [12, 12, 12] = none := by
  decide

/-- C9, amended: whenever a `guided_filter` invocation completes (which
requires `down_ratio = 0`; any down-ratio of at least 2 raises at the
radius rescaling, see C4), the output's spatial dimensions and plane
count equal the input's and the output bit depth is the input's original
depth, restored from the 32-bit working precision. -/
theorem c9_shape_preserved (w h bits : ℤ) (np : ℕ) (dr : ℤ) (r : List ℤ)
    (out : ℤ × ℤ × ℕ × ℤ) (hrun : guidedMeta w h bits np dr r = some out) :
    out = (w, h, np, bits) := by
  by_cases hdr : dr = 0
  · subst hdr
    simp [guidedMeta, exprDims, blurDims] at hrun
    exact hrun.symm
  · simp [guidedMeta, radiusAfterDown, pyListDivInt, hdr] at hrun

/-- C9, witness: a completing 720p invocation with its preserved shape. -/
theorem c9_shape_preserved_witness :
    guidedMeta 1280 720 8 3 0 [12] = some (1280, 720, 3, 8) ∧
      ((1280, 720, 3, 8) : ℤ × ℤ × ℕ × ℤ) = (1280, 720, 3, 8) :=
  ⟨by decide, c9_shape_preserved 1280 720 8 3 0 [12] _ (by decide)⟩

/-! ### The manual computation substituting `var_I` for `var_I_1`
(the comparison object of testable property 4 of the spec): lines
100-142 re-derived with the main-pass variance in place of the
corrective-pass variance. -/

/-- Lines 100-103 with `var_I` substituted for `var_I_1`. -/
def weight_inS (A : GFIn ι) : ι → ℚ :=
  match A.mode with
  | .WEIGHTED => var_I A
  | _ => exprMap A [] [] eSqrtMul [var_I A, var_I A]

/-- Line 105 of the substituted computation. -/
def denominatorS (A : GFIn ι) : ι → ℚ :=
  exprMap A [] [] eDenom [weight_inS A]

/-- Line 107 of the substituted computation. -/
def denomAvgS (A : GFIn ι) : ℚ := A.env.avg (denominatorS A)

/-- Lines 109-116 of the substituted computation. -/
def weightS (A : GFIn ι) : ι → ℚ :=
  if A.aka then
    exprMap A [0, denomAvgS A] [0, 0] eWeightAka [weight_inS A, denominatorS A]
  else
    exprMap A [] [] (eWeightFE (denomAvgS A)) [weight_inS A]

/-- Line 121 of the substituted computation. -/
def wAvgS (A : GFIn ι) : ℚ := A.env.avg (weight_inS A)

/-- Line 121 of the substituted computation. -/
def wMinS (A : GFIn ι) : ℚ := A.env.minS (weight_inS A)

/-- Line 137 of the substituted computation. -/
def kkS (A : GFIn ι) : ℚ := -4 / (wMinS A - wAvgS A - eps6)

/-- Lines 90-140 of the substituted computation. -/
def aMapS (A : GFIn ι) : ι → ℚ :=
  match A.mode with
  | .ORIGINAL => exprMap A [] [] (eAOrig A.eps) [cov_Ip A, var_I A]
  | .WEIGHTED =>
      exprMap A [] [] (eAWeighted A.eps) [cov_Ip A, var_I A, weightS A]
  | .GRADIENT =>
      if A.aka then
        exprMap A [0, wAvgS A] [0, wMinS A] (eAGradAka A.eps)
          [cov_Ip A, weight_inS A, weightS A, var_I A]
      else
        exprMap A [] [] (eAGradFE A.eps (kkS A) (wAvgS A))
          [cov_Ip A, weight_inS A, weightS A, var_I A]

/-- Line 142 of the substituted computation. -/
def bMapS (A : GFIn ι) : ι → ℚ :=
  exprMap A [] [] eCovT [mean_p A, aMapS A, mean_I A]

/-- Lines 144-150 of the substituted computation. -/
def qMapS (A : GFIn ι) : ι → ℚ :=
  exprMap A [] [] eRecon
    [blurMap A (blurF A) (aMapS A), gPlane A, blurMap A (blurF A) (bMapS A)]

/-! ### Concrete instances used by counterexamples and witnesses -/

/-- A one-pixel plane environment: every blur is the identity (a box blur
of a single-pixel image) and the full-plane reductions return the single
sample. -/
def envTriv : GFEnv Unit where
  boxB := fun _ f => f
  gaussB := fun _ f => f
  avg := fun f => f ()
  minS := fun f => f ()
  sqrtE := id
  expE := id

/-- A concrete WEIGHTED-mode invocation with per-plane radius 1
(`rList = [1]`, `rv = 1`), self-guided, on the one-pixel plane. -/
def baseA : GFIn Unit where
  env := envTriv
  useGauss := false
  sel := true
  aka := true
  mode := .WEIGHTED
  rList := [1]
  rv := 1
  eps := eps6
  p := fun _ => 0
  gOpt := none

/-! ### C1 — the corrective pass at radius 1 -/

/-- C1, counterexample: at configured radius exactly 1 the corrective
small-window statistics pass is *not* skipped.  The line-93 guard
compares the normalized radius list `[1]` with the int `1`, which is
`False` in Python, so `var_I_1` is computed by the corrective
`blur_filter_corr` pass (the else branch), not reused from `var_I`. -/
theorem c1_radius_one_cx :
    baseA.rList = [1] ∧ baseA.mode = GFMode.WEIGHTED ∧
      pyListEqInt baseA.rList 1 = false ∧
      var_I_1 baseA =
        exprMap baseA [] [] eVarT
          [blurMap baseA (blurCorrF baseA) (I_square baseA),
           blurMap baseA (blurCorrF baseA) (gPlane baseA)] :=
  ⟨rfl, rfl, rfl, rfl⟩

/-- At radius 1 the main blur's parameters coincide with the corrective
blur's: box window `1 + 1 = 2`, Gaussian sigma `1/2 * sqrt 2`. -/
theorem blurCorrF_eq_blurF (A : GFIn ι) (hrv : A.rv = 1) :
    blurCorrF A = blurF A := by
  unfold blurCorrF blurF
  rw [hrv]
  norm_num

/-- At radius 1 the corrective-pass variance coincides with the
main-pass variance, even though the pass is executed. -/
theorem var_I_1_eq_var_I (A : GFIn ι) (hrv : A.rv = 1) :
    var_I_1 A = var_I A := by
  unfold var_I_1 var_I
  rw [pyListEqInt, blurCorrF_eq_blurF A hrv]
  simp only [Bool.false_eq_true, if_false]
  unfold corr_I mean_I mean_p gPlane
  cases A.gOpt <;> rfl

/-- C1, amended: for WEIGHTED or GRADIENT mode with configured radius
exactly 1 the corrective small-window pass is *executed* (the guard
`r == 1` compares the per-plane radius list with an int and never
holds), but its blur coincides with the main blur at radius 1, so
`var_I_1` equals `var_I` as a map and the solver output (slope,
intercept and reconstructed plane) equals the manual computation that
substitutes `var_I` for `var_I_1`. -/
theorem c1_radius_one (A : GFIn ι) (hrv : A.rv = 1)
    (_hm : A.mode ≠ GFMode.ORIGINAL) :
    pyListEqInt A.rList 1 = false ∧ var_I_1 A = var_I A ∧
      aMap A = aMapS A ∧ bMap A = bMapS A ∧ qMap A = qMapS A := by
  have hv := var_I_1_eq_var_I A hrv
  have hwin : weight_in A = weight_inS A := by
    unfold weight_in weight_inS
    rw [hv]
  have hden : denominator A = denominatorS A := by
    unfold denominator denominatorS
    rw [hwin]
  have hdavg : denomAvg A = denomAvgS A := by
    unfold denomAvg denomAvgS
    rw [hden]
  have hw : weight A = weightS A := by
    unfold weight weightS
    rw [hwin, hden, hdavg]
  have hwavg : wAvg A = wAvgS A := by
    unfold wAvg wAvgS
    rw [hwin]
  have hwmin : wMin A = wMinS A := by
    unfold wMin wMinS
    rw [hwin]
  have hkk : kkFE A = kkS A := by
    unfold kkFE kkS
    rw [hwavg, hwmin]
  have ha : aMap A = aMapS A := by
    unfold aMap aMapS
    rw [hwin, hw, hwavg, hwmin, hkk]
  have hb : bMap A = bMapS A := by
    unfold bMap bMapS
    rw [ha]
  refine ⟨rfl, hv, ha, hb, ?_⟩
  unfold qMap qMapS mean_a mean_b
  rw [ha, hb]

/-- C1, witness: the amended theorem at the concrete radius-1 WEIGHTED
invocation. -/
theorem c1_radius_one_witness : var_I_1 baseA = var_I baseA :=
  (c1_radius_one baseA rfl (by decide)).2.1

/-! ### C5 — the WEIGHTED-mode solver formulas -/

/-- C5: in WEIGHTED mode the weight source is `W = var_I_1`, the weight
map is `(W + 1e-6) * mu_denom` where `mu_denom` is the full-plane
arithmetic-mean reduction of `denom = 1/(W + 1e-6)`, the slope satisfies
`a = cov_Ip / (var_I + eps / weight)`, and in every mode the intercept
satisfies `b = mean_p - a * mean_I`. -/
theorem c5_weighted_solver (A : GFIn ι) (hs : A.sel = true)
    (hm : A.mode = GFMode.WEIGHTED) :
    weight_in A = var_I_1 A ∧
      weight A = specWeight (var_I_1 A) (A.env.avg (specDenom (var_I_1 A))) ∧
      aMap A = specAWeighted (cov_Ip A) (var_I A) (weight A) A.eps ∧
      ∀ B : GFIn ι, B.sel = true →
        bMap B = specB (mean_p B) (aMap B) (mean_I B) := by
  have hwin : weight_in A = var_I_1 A := by
    simp only [weight_in, hm]
  have hden : denominator A = specDenom (var_I_1 A) := by
    funext i
    simp [denominator, specDenom, exprMap, hs, rpn1, rpnRun, rpnStep,
      eDenom, hwin]
  have hweight :
      weight A = specWeight (var_I_1 A) (A.env.avg (specDenom (var_I_1 A))) := by
    cases haka : A.aka <;> funext i <;>
      simp [weight, haka, specWeight, exprMap, hs, rpn1, rpnRun, rpnStep,
        eWeightAka, eWeightFE, denomAvg, hden, hwin]
  refine ⟨hwin, hweight, ?_, ?_⟩
  · funext i
    simp [aMap, hm, specAWeighted, exprMap, hs, rpn1, rpnRun, rpnStep,
      eAWeighted]
  · intro B hsB
    funext i
    simp [bMap, specB, exprMap, hsB, rpn1, rpnRun, rpnStep, eCovT]

/-- C5, witness: the theorem at the concrete WEIGHTED invocation. -/
theorem c5_weighted_solver_witness :
    aMap baseA = specAWeighted (cov_Ip baseA) (var_I baseA) (weight baseA)
      baseA.eps :=
  (c5_weighted_solver baseA rfl rfl).2.2.1

/-! ### C6 — self-guided statistics coincide -/

/-- C6: with guidance absent the statistics maps coincide —
`mean_I = mean_p`, `corr_Ip = corr_I`, `cov_Ip = var_I` — and,
moreover, running the guidance-present formulas with the input itself as
guidance produces exactly the same three maps, so the solver consumes a
single mean/variance pair. -/
theorem c6_self_guided (A : GFIn ι) (hg : A.gOpt = none) :
    mean_I A = mean_p A ∧ corr_Ip A = corr_I A ∧ cov_Ip A = var_I A ∧
      mean_I {A with gOpt := some A.p} = mean_p A ∧
      corr_Ip {A with gOpt := some A.p} = corr_I A ∧
      cov_Ip {A with gOpt := some A.p} = var_I A := by
  have hgp : gPlane A = A.p := by
    rw [gPlane, hg]
    rfl
  have h1 : mean_I A = mean_p A := by simp only [mean_I, hg]
  have h2 : corr_Ip A = corr_I A := by simp only [corr_Ip, hg]
  have h3 : cov_Ip A = var_I A := by simp only [cov_Ip, hg]
  have h4 : mean_I {A with gOpt := some A.p} = mean_p A := rfl
  have h5 : corr_Ip {A with gOpt := some A.p} = corr_I A := by
    show blurMap A (blurF A) (exprMap A [] [] eMulXY [A.p, A.p]) =
      blurMap A (blurF A) (I_square A)
    apply congrArg
    funext i
    by_cases hs : A.sel <;>
      simp [exprMap, I_square, hgp, hs, rpn1, rpnRun, rpnStep, eMulXY,
        eSquare, firstSrc]
  have h6 : cov_Ip {A with gOpt := some A.p} = var_I A := by
    show exprMap A [] [] eCovT
        [corr_Ip {A with gOpt := some A.p}, mean_I {A with gOpt := some A.p},
         mean_p A] =
      exprMap A [] [] eVarT [corr_I A, mean_I A]
    rw [h5, h4]
    funext i
    by_cases hs : A.sel <;>
      simp [exprMap, h1, hs, rpn1, rpnRun, rpnStep, eCovT, eVarT, firstSrc]
  exact ⟨h1, h2, h3, h4, h5, h6⟩

/-- C6, witness: the theorem at the concrete self-guided invocation. -/
theorem c6_self_guided_witness :
    cov_Ip {baseA with gOpt := some baseA.p} = var_I baseA :=
  (c6_self_guided baseA rfl).2.2.2.2.2

/-! ### C7 and C10 — the GRADIENT-mode solver and its two backends -/

/-- A 1-D three-pixel box blur with replicated edges (the window averages
the clamped neighbourhood), used to instantiate the blur collaborator on
a plane small enough for exact evaluation. -/
def box3 (f : Fin 3 → ℚ) : Fin 3 → ℚ := fun i =>
  if i.val = 0 then (2 * f 0 + f 1) / 3
  else if i.val = 1 then (f 0 + f 1 + f 2) / 3
  else (f 1 + 2 * f 2) / 3

/-- A three-pixel plane environment with exact full-plane reductions.
The expression evaluator's `sqrt` and `exp` collaborators are
instantiated with simple exact stand-ins (the identity and an affine
map); the counterexamples below exhibit a discrepancy in the constant
`k` fed to `exp`, which is independent of how `exp` itself is
interpreted. -/
def envFin3 : GFEnv (Fin 3) where
  boxB := fun _ => box3
  gaussB := fun _ => box3
  avg := fun f => (f 0 + f 1 + f 2) / 3
  minS := fun f => min (f 0) (min (f 1) (f 2))
  sqrtE := id
  expE := fun t => 1 + t

/-- A concrete GRADIENT-mode, akarin-path, self-guided invocation on the
three-pixel plane `(0, 0, 6)`, whose weight source comes out nonconstant
(its full-plane minimum differs from its mean). -/
def gradA : GFIn (Fin 3) where
  env := envFin3
  useGauss := false
  sel := true
  aka := true
  mode := .GRADIENT
  rList := [3]
  rv := 3
  eps := 1 / 100
  p := fun i => if i.val = 2 then 6 else 0
  gOpt := none

/-- The same invocation on the `FrameEval` backend
(`aka_expr_available` false). -/
def gradAfe : GFIn (Fin 3) := {gradA with aka := false}

theorem gradA_sel : gradA.sel = true := rfl

theorem gradA_mode : gradA.mode = GFMode.GRADIENT := rfl

theorem gradA_aka : gradA.aka = true := rfl

theorem gradA_useGauss : gradA.useGauss = false := rfl

theorem gradA_env : gradA.env = envFin3 := rfl

theorem gradA_rv : gradA.rv = 3 := rfl

theorem gradA_eps : gradA.eps = 1 / 100 := rfl

theorem gradA_p : gradA.p = fun i => if i.val = 2 then 6 else 0 := rfl

theorem gradA_gOpt : gradA.gOpt = none := rfl

theorem gradA_I_square :
    I_square gradA = fun i => if i.val = 2 then 36 else 0 := by
  funext i
  fin_cases i <;>
    norm_num [I_square, exprMap, gPlane, gradA_sel, gradA_gOpt, gradA_p,
      gradA_env, envFin3, rpn1, rpnRun, rpnStep, eSquare]

theorem gradA_mean_p :
    mean_p gradA =
      fun i => if i.val = 0 then 0 else if i.val = 1 then 2 else 4 := by
  funext i
  fin_cases i <;>
    norm_num [mean_p, blurMap, blurF, gradA_sel, gradA_useGauss, gradA_rv,
      gradA_env, gradA_p, envFin3, box3]

theorem gradA_corr_I :
    corr_I gradA =
      fun i => if i.val = 0 then 0 else if i.val = 1 then 12 else 24 := by
  funext i
  fin_cases i <;>
    norm_num [corr_I, blurMap, blurF, gradA_sel, gradA_useGauss, gradA_rv,
      gradA_env, envFin3, box3, gradA_I_square]

theorem gradA_var_I : var_I gradA = fun i => if i.val = 0 then 0 else 8 := by
  funext i
  fin_cases i <;>
    norm_num [var_I, mean_I, gradA_gOpt, exprMap, gradA_sel, gradA_env,
      envFin3, rpn1, rpnRun, rpnStep, eVarT, gradA_corr_I, gradA_mean_p]

/-- The corrective pass of `gradA` uses the same three-pixel box blur as
the main pass, so its variance coincides with the main one. -/
theorem gradA_var_I_1 : var_I_1 gradA = var_I gradA := rfl

theorem gradA_weight_in :
    weight_in gradA = fun i => if i.val = 0 then 0 else 64 := by
  funext i
  fin_cases i <;>
    norm_num [weight_in, gradA_mode, exprMap, gradA_sel, gradA_env,
      envFin3, rpn1, rpnRun, rpnStep, eSqrtMul, gradA_var_I_1, gradA_var_I]

theorem gradA_denomAvg : denomAvg gradA = 64000003000000 / 192000003 := by
  norm_num [denomAvg, denominator, exprMap, gradA_sel, gradA_env, envFin3,
    rpn1, rpnRun, rpnStep, eDenom, gradA_weight_in, eps6]

theorem gradA_weight_zero : weight gradA 0 = 64000003 / 192000003 := by
  norm_num [weight, gradA_aka, exprMap, gradA_sel, rpn1, rpnRun, rpnStep,
    eWeightAka, gradA_weight_in, gradA_denomAvg, eps6]

theorem gradA_wAvg : wAvg gradA = 128 / 3 := by
  norm_num [wAvg, gradA_env, envFin3, gradA_weight_in]

theorem gradA_wMin : wMin gradA = 0 := by
  norm_num [wMin, gradA_env, envFin3, gradA_weight_in]

theorem gradA_aMap_zero : aMap gradA 0 = 384000003 / 256000006 := by
  norm_num [aMap, gradA_mode, gradA_aka, gradA_eps, exprMap, gradA_sel,
    gradA_env, envFin3, rpn1, rpnRun, rpnStep, eAGradAka, cov_Ip,
    gradA_gOpt, gradA_var_I, gradA_weight_in, gradA_weight_zero,
    gradA_wAvg, gradA_wMin, eps6]

/-- C7, counterexample: the claim's slope formula uses
`k = -4 / (min_W - mu_W - 1e-6)` (`kkFE`), but on the akarin
single-expression path — taken whenever `aka_expr_available` — the
code's slope map differs from that formula at a concrete input: the RPN
tokens `y.PlaneStatsMin y.PlaneStatsAverage 1e-6 - -` compute
`min_W - (mu_W - 1e-6)`, flipping the sign of the `1e-6` stabilizer. -/
theorem c7_gradient_solver_cx :
    gradA.aka = true ∧
      aMap gradA 0 ≠
        specAGradient envFin3.expE (cov_Ip gradA) (var_I gradA)
          (weight_in gradA) (weight gradA) gradA.eps (kkFE gradA)
          (wAvg gradA) 0 := by
  refine ⟨rfl, ?_⟩
  rw [gradA_aMap_zero]
  norm_num [specAGradient, kkFE, envFin3, cov_Ip, gradA_gOpt, gradA_eps,
    gradA_var_I, gradA_weight_in, gradA_weight_zero, gradA_wAvg,
    gradA_wMin, eps6]

/-- C7, amended: in GRADIENT mode the weight source is
`W = sqrt(var_I * var_I_1)`, the full-plane mean `mu_W` and minimum
`min_W` of `W` are reduced, and the slope is
`a = (cov_Ip + eps * (1 - 1/(1 + exp(k * (W - mu_W)))) / weight) /
(var_I + eps / weight)` — with `k = -4 / (min_W - mu_W - 1e-6)` on the
`FrameEval` path, but `k = -4 / (min_W - mu_W + 1e-6)` on the akarin
single-expression path. -/
theorem c7_gradient_solver (A : GFIn ι) (hs : A.sel = true)
    (hm : A.mode = GFMode.GRADIENT) :
    weight_in A = (fun i => A.env.sqrtE (var_I A i * var_I_1 A i)) ∧
      (A.aka = true →
        aMap A = specAGradient A.env.expE (cov_Ip A) (var_I A)
          (weight_in A) (weight A) A.eps
          (-4 / (wMin A - wAvg A + eps6)) (wAvg A)) ∧
      (A.aka = false →
        aMap A = specAGradient A.env.expE (cov_Ip A) (var_I A)
          (weight_in A) (weight A) A.eps (kkFE A) (wAvg A)) := by
  refine ⟨?_, ?_, ?_⟩
  · funext i
    simp [weight_in, hm, exprMap, hs, rpn1, rpnRun, rpnStep, eSqrtMul]
  · intro ha
    funext i
    simp [aMap, hm, ha, exprMap, hs, rpn1, rpnRun, rpnStep, eAGradAka,
      specAGradient,
      show wMin A - (wAvg A - eps6) = wMin A - wAvg A + eps6 from by ring]
  · intro ha
    funext i
    simp [aMap, hm, ha, exprMap, hs, rpn1, rpnRun, rpnStep, eAGradFE,
      specAGradient]

/-- C7, witness: the amended theorem at the concrete akarin-path
invocation. -/
theorem c7_gradient_solver_witness :
    aMap gradA = specAGradient envFin3.expE (cov_Ip gradA) (var_I gradA)
      (weight_in gradA) (weight gradA) gradA.eps
      (-4 / (wMin gradA - wAvg gradA + eps6)) (wAvg gradA) :=
  (c7_gradient_solver gradA rfl rfl).2.1 rfl

/-- C10: the two backend implementations of the weight and slope
computation do *not* compute identical maps.  They agree on the weight
map, but in GRADIENT mode the akarin single-expression path and the
`FrameEval` callback path feed different constants `k` to the
sharpening exponential (`-4/(min_W - mu_W + 1e-6)` versus
`-4/(min_W - mu_W - 1e-6)`), and their slope maps differ at a concrete
input. -/
theorem gradAfe_aMap_zero : aMap gradAfe 0 = 383999997 / 255999994 := by
  have h1 : cov_Ip gradAfe = var_I gradA := rfl
  have h2 : weight_in gradAfe = weight_in gradA := rfl
  have h3 : weight gradAfe = weight gradA := funext fun _ => rfl
  have h4 : wAvg gradAfe = wAvg gradA := rfl
  have h5 : wMin gradAfe = wMin gradA := rfl
  have h6 : var_I gradAfe = var_I gradA := rfl
  norm_num [aMap, show gradAfe.mode = GFMode.GRADIENT from rfl,
    show gradAfe.aka = false from rfl, show gradAfe.sel = true from rfl,
    show gradAfe.eps = 1 / 100 from rfl,
    show gradAfe.env = envFin3 from rfl, envFin3, exprMap, rpn1, rpnRun,
    rpnStep, eAGradFE, kkFE, h1, h2, h3, h4, h5, h6, gradA_var_I,
    gradA_weight_in, gradA_weight_zero, gradA_wAvg, gradA_wMin, eps6]

theorem c10_backend_divergence :
    weight gradA = weight gradAfe ∧ aMap gradA 0 ≠ aMap gradAfe 0 := by
  refine ⟨?_, ?_⟩
  · funext i
    rfl
  · rw [gradA_aMap_zero, gradAfe_aMap_zero]
    norm_num

/-! ### C8 — plane passthrough -/

/-- A plane excluded from `planes` (`sel = false`), with a guidance clip
whose excluded plane differs from the input's. -/
def passA : GFIn Unit where
  env := envTriv
  useGauss := false
  sel := false
  aka := true
  mode := .GRADIENT
  rList := [3]
  rv := 3
  eps := eps6
  p := fun _ => 0
  gOpt := some (fun _ => 1)

/-- C8, counterexample: on a plane excluded from `planes`, with a
guidance clip present, the output plane is *not* the input plane — the
unprocessed plane is copied from the first source of each `norm_expr` /
blur call, and that chain ends at the guidance plane, not the input. -/
theorem c8_plane_passthrough_cx :
    passA.sel = false ∧ qMap passA () ≠ passA.p () := by
  refine ⟨rfl, ?_⟩
  have h : qMap passA () = 1 := rfl
  have hp : passA.p () = 0 := rfl
  rw [h, hp]
  norm_num

/-- C8, amended: for a plane excluded from `planes` the output plane
equals the *guidance* plane at working precision (every `norm_expr` and
blur call copies unprocessed planes from its first source, and the chain
of first sources ends at the guidance clip); when no guidance clip is
supplied this is the input plane, so the claim holds exactly in the
self-guided case. -/
theorem c8_plane_passthrough (A : GFIn ι) (hs : A.sel = false) :
    qMap A = gPlane A ∧ (A.gOpt = none → qMap A = A.p) := by
  have ha : aMap A = cov_Ip A := by
    cases hm : A.mode <;> cases hk : A.aka <;> funext j <;>
      simp [aMap, hm, hk, exprMap, hs, firstSrc]
  have hcov : cov_Ip A = gPlane A := by
    cases hg : A.gOpt with
    | none =>
        funext j
        simp [cov_Ip, hg, var_I, corr_I, I_square, exprMap, blurMap, hs,
          firstSrc, gPlane]
    | some g0 =>
        funext j
        simp [cov_Ip, hg, corr_Ip, exprMap, blurMap, hs, firstSrc, gPlane]
  have hq : qMap A = gPlane A := by
    funext j
    simp [qMap, mean_a, exprMap, blurMap, hs, firstSrc, ha, hcov]
  refine ⟨hq, fun hg => ?_⟩
  rw [hq, gPlane, hg]
  rfl

/-- C8, witness: the amended theorem at the concrete excluded plane. -/
theorem c8_plane_passthrough_witness : qMap passA = gPlane passA :=
  (c8_plane_passthrough passA rfl).1

/-! ### C3 — uniform input reproduced exactly -/

/-- A self-guided ORIGINAL-mode invocation with radius 3 and regulation
`1e-6` on a constant plane of working-precision value `c`. -/
def uniformA (env : GFEnv ι) (aka : Bool) (c : ℚ) : GFIn ι where
  env := env
  useGauss := false
  sel := true
  aka := aka
  mode := .ORIGINAL
  rList := [3]
  rv := 3
  eps := eps6
  p := fun _ => c
  gOpt := none

/-- C3: on a uniform plane of 8-bit value 128, self-guided, radius 3,
ORIGINAL mode, regulation `1e-6`, every output sample is exactly 128:
the box blur (radius argument `3 + 1 = 4`) preserves constants, so
`var_I = cov_Ip = 0`, the slope is `0 / (0 + 1e-6) = 0`, the intercept
is the constant itself, and the restored output value is again 128.
`toW`/`fromW` are the bit-depth promotion/restoration collaborators,
assumed to round-trip the representable value 128. -/
theorem c3_uniform_identity {ι : Type} (env : GFEnv ι) (aka : Bool)
    (toW : ℤ → ℚ) (fromW : ℚ → ℤ)
    (hb : ∀ c : ℚ, env.boxB 4 (fun _ => c) = fun _ => c)
    (hrt : fromW (toW 128) = 128) (i : ι) :
    fromW (qMap (uniformA env aka (toW 128)) i) = 128 := by
  set c : ℚ := toW 128 with hc
  set A : GFIn ι := uniformA env aka c with hA
  have hBF : blurF A = env.boxB 4 := by
    norm_num [blurF, hA, uniformA]
  have hmp : mean_p A = fun _ => c := by
    rw [show mean_p A = blurF A A.p from rfl, hBF]
    exact hb c
  have hmI : mean_I A = mean_p A := rfl
  have hg : gPlane A = fun _ => c := rfl
  have hIsq : I_square A = fun _ => c * c := by
    funext j
    simp [I_square, exprMap, show A.sel = true from rfl, rpn1, rpnRun,
      rpnStep, eSquare, hg]
  have hcI : corr_I A = fun _ => c * c := by
    rw [show corr_I A = blurF A (I_square A) from rfl, hBF, hIsq]
    exact hb (c * c)
  have hvar : var_I A = fun _ => 0 := by
    funext j
    simp [var_I, exprMap, show A.sel = true from rfl, rpn1, rpnRun,
      rpnStep, eVarT, hcI, hmI, hmp]
  have hcov : cov_Ip A = var_I A := rfl
  have ha : aMap A = fun _ => 0 := by
    funext j
    simp [aMap, show A.mode = GFMode.ORIGINAL from rfl, exprMap,
      show A.sel = true from rfl, rpn1, rpnRun, rpnStep, eAOrig, hcov,
      hvar]
  have hbm : bMap A = fun _ => c := by
    funext j
    simp [bMap, exprMap, show A.sel = true from rfl, rpn1, rpnRun,
      rpnStep, eCovT, hmp, ha, hmI]
  have hma : mean_a A = fun _ => 0 := by
    rw [show mean_a A = blurF A (aMap A) from rfl, hBF, ha]
    exact hb 0
  have hmb : mean_b A = fun _ => c := by
    rw [show mean_b A = blurF A (bMap A) from rfl, hBF, hbm]
    exact hb c
  have hq : qMap A i = c := by
    simp [qMap, exprMap, show A.sel = true from rfl, rpn1, rpnRun,
      rpnStep, eRecon, hma, hmb, hg]
  rw [hq, hc]
  exact hrt

/-- Clamp an integer coordinate into the 64-pixel range (edge
replication). -/
def clamp64 (z : ℤ) : Fin 64 := ⟨(max 0 (min 63 z)).toNat, by omega⟩

/-- A genuine normalized 2-D box blur on a 64x64 plane with replicated
edges: the window of half-width `r` is averaged with equal weights. -/
def box64 (r : ℤ) (f : Fin 64 × Fin 64 → ℚ) : Fin 64 × Fin 64 → ℚ :=
  fun x =>
    (∑ dy ∈ Finset.Icc (-r) r, ∑ dx ∈ Finset.Icc (-r) r,
        f (clamp64 ((x.1 : ℤ) + dy), clamp64 ((x.2 : ℤ) + dx))) /
      ((2 * r + 1 : ℚ)) ^ 2

/-- The normalized box blur preserves constant planes. -/
theorem box64_const (r : ℤ) (hr : 0 ≤ r) (c : ℚ) :
    box64 r (fun _ => c) = fun _ => c := by
  funext x
  have hcard : (Finset.Icc (-r) r).card = (2 * r + 1).toNat := by
    rw [Int.card_Icc]
    congr 1
    omega
  have hcast : (((2 * r + 1).toNat : ℕ) : ℚ) = ((2 * r + 1 : ℤ) : ℚ) := by
    exact_mod_cast Int.toNat_of_nonneg (show (0 : ℤ) ≤ 2 * r + 1 by omega)
  have hne : ((2 * r + 1 : ℤ) : ℚ) ≠ 0 := by
    have : (0 : ℤ) < 2 * r + 1 := by omega
    exact_mod_cast this.ne'
  simp only [box64, Finset.sum_const, hcard, nsmul_eq_mul, hcast]
  rw [show ((2 * r + 1 : ℤ) : ℚ) * (((2 * r + 1 : ℤ) : ℚ) * c) =
      ((2 * r + 1 : ℤ) : ℚ) ^ 2 * c from by ring]
  rw [show ((2 * r + 1 : ℚ)) ^ 2 = ((2 * r + 1 : ℤ) : ℚ) ^ 2 from by
    push_cast; ring]
  exact mul_div_cancel_left₀ c (pow_ne_zero 2 hne)

/-- The 64x64 plane environment with the genuine box blur and the exact
full-plane arithmetic mean. -/
def envBox64 : GFEnv (Fin 64 × Fin 64) where
  boxB := box64
  gaussB := fun _ f => f
  avg := fun f => (∑ x, f x) / 4096
  minS := fun f => f default
  sqrtE := id
  expE := id

/-- C3, witness: the theorem on the concrete 64x64 uniform plane of
value 128, with integer promotion/floor restoration. -/
theorem c3_uniform_identity_witness :
    (fun i => ⌊qMap (uniformA envBox64 true ((128 : ℤ) : ℚ)) i⌋) =
      fun _ => (128 : ℤ) := by
  funext i
  exact c3_uniform_identity envBox64 true (fun z => (z : ℚ)) (fun q => ⌊q⌋)
    (fun c => box64_const 4 (by norm_num) c) (by norm_num) i

end VSDeband
